import Mathlib

/-!
Shallow embedding of the `BusinessTable` component of the business-contact
directory (src/src/components/BusinessTable.tsx).

Conventions of the embedding:

* JavaScript strings are Lean `String`s; the JS string operations used by the
  component (`toLowerCase`, `includes`, `trim`, `replace(/\s/g,'')`,
  `replace(/^0+/,'')`) are modelled character-by-character over `String.data`.
* `createdAt` is an optional ISO date string in the source; the component only
  ever consumes it through `new Date(s).getTime()`, so it is embedded directly
  as the parsed epoch timestamp `Option Int` (with `none` for an
  absent/falsy value, which is how the sort comparators treat it).
* `localeCompare` is locale-dependent; it is taken as an abstract parameter
  `lc : String → String → Int`. No claim under verification depends on it.
* `Array.prototype.sort(cmp)` (ES2019+) is a stable sort whose output is
  ordered so that `cmp a b ≤ 0` holds pairwise in order; it is embedded as
  `List.mergeSort` with the boolean relation `cmp a b ≤ 0`, which is exactly
  a stable sort producing a `Pairwise` ordered list.
* The component's network effects are embedded by passing the outcome of each
  `fetch` (`NetResult`) as an explicit argument to a pure state-transition
  function over the component's `useState` fields (`CState`).
-/

namespace BizTracker

/-- The `StatusType` union of the source: `"green" | "red" | "yellow" | ""`.
`unset` stands for the empty-string member. -/
inductive StatusType where
  | green
  | red
  | yellow
  | unset
  deriving DecidableEq, Repr

/-- The `Business` interface of the source. `id` is a JS number holding an
integer; `createdAt` is the parsed timestamp of the optional ISO string. -/
structure Business where
  id : Int
  businessName : String
  phone : String
  businessType : String
  comment : String
  status : StatusType
  createdAt : Option Int
  deriving DecidableEq, Repr

/-! ### Models of the JS string operations used by the component -/

/-- JS `String.prototype.toLowerCase`, character by character. -/
def jsToLower (s : String) : String :=
  ⟨s.data.map Char.toLower⟩

/-- Helper for `jsIncludesL`: `needle` occurs at the very start of `hay`. -/
def leadsList : List Char → List Char → Bool
  | [], _ => true
  | _ :: _, [] => false
  | a :: as, b :: bs => a == b && leadsList as bs

/-- JS `String.prototype.includes` over the character lists: `needle` occurs
contiguously somewhere in `hay`. -/
def jsIncludesL (hay needle : List Char) : Bool :=
  match hay with
  | [] => needle.isEmpty
  | c :: t => leadsList needle (c :: t) || jsIncludesL t needle

/-- JS `hay.includes(needle)`. -/
def jsIncludes (hay needle : String) : Bool :=
  jsIncludesL hay.data needle.data

/-- JS `String.prototype.trim`: strip whitespace from both ends. -/
def jsTrim (s : String) : String :=
  ⟨((s.data.dropWhile Char.isWhitespace).reverse.dropWhile Char.isWhitespace).reverse⟩

/-- Specification-side substring containment: `needle` is a contiguous
segment of `hay`. -/
def ContainsSub (hay needle : List Char) : Prop :=
  ∃ s t, s ++ needle ++ t = hay

/-! ### The filter / sort / paginate pipeline -/

/-- The filter predicate of `filteredBusinesses` (lines 65–70 of the source):
name matches case-insensitively, phone matches case-sensitively. -/
def passesFilter (searchName searchPhone : String) (b : Business) : Bool :=
  jsIncludes (jsToLower b.businessName) (jsToLower searchName) &&
    jsIncludes b.phone searchPhone

/-- The `sortBy` state union: `"name" | "date-new" | "date-old" | "none"`. -/
inductive SortBy where
  | name
  | dateNew
  | dateOld
  | noSort
  deriving DecidableEq, Repr

/-- The sort comparator of `filteredBusinesses` (lines 71–88 of the source),
returning the JS comparator value. `lc` is the abstract `localeCompare`.
In both date modes a record without a timestamp compares after one with a
timestamp (`1` / `-1`) and two records without timestamps compare equal. -/
def businessCmp (lc : String → String → Int) (sb : SortBy) (a b : Business) : Int :=
  match sb with
  | .name => lc a.businessName b.businessName
  | .dateNew =>
    match a.createdAt, b.createdAt with
    | none, none => 0
    | none, some _ => 1
    | some _, none => -1
    | some ta, some tb => tb - ta
  | .dateOld =>
    match a.createdAt, b.createdAt with
    | none, none => 0
    | none, some _ => 1
    | some _, none => -1
    | some ta, some tb => ta - tb
  | .noSort => 0

/-- The boolean order underlying the stable JS sort: `cmp a b ≤ 0`. -/
def businessLe (lc : String → String → Int) (sb : SortBy) (a b : Business) : Bool :=
  decide (businessCmp lc sb a b ≤ 0)

/-- `filteredBusinesses` (lines 65–88): filter, then stable sort. -/
def filteredBusinesses (lc : String → String → Int) (businesses : List Business)
    (searchName searchPhone : String) (sb : SortBy) : List Business :=
  (businesses.filter (passesFilter searchName searchPhone)).mergeSort (businessLe lc sb)

/-- `itemsPerPage = 30` (line 41). -/
def itemsPerPage : Nat := 30

/-- JS `Math.ceil(n / m)` for natural `n` and positive natural `m`. -/
def jsCeilDiv (n m : Nat) : Nat := (n + m - 1) / m

/-- `totalPages = Math.ceil(filteredBusinesses.length / itemsPerPage)`
(line 96 of the source). -/
def totalPages (lc : String → String → Int) (businesses : List Business)
    (searchName searchPhone : String) (sb : SortBy) : Nat :=
  jsCeilDiv (filteredBusinesses lc businesses searchName searchPhone sb).length itemsPerPage

/-! ### Component state and network model -/

/-- One `toast` notification: `isError` distinguishes `toast.error` from
`toast.success`. -/
structure Toast where
  isError : Bool
  msg : String
  deriving DecidableEq, Repr

/-- Outcome of one `fetch` as the component observes it: either the awaited
`fetch`/`response.json()` threw (transport error), or a JSON body was parsed,
carrying its `status` field and its `data` field (a business list; empty for
bodies without one). -/
inductive NetResult where
  | transportError
  | ok (status : String) (data : List Business)
  deriving DecidableEq, Repr

/-- The `useState` fields of the component that the CRUD handlers touch,
plus the stream of emitted toasts. -/
structure CState where
  businesses : List Business
  editingBusiness : Option Business
  isDialogOpen : Bool
  isAddMode : Bool
  loading : Bool
  deleteDialogOpen : Bool
  businessToDelete : Option Int
  statusDialogOpen : Bool
  businessToUpdateStatus : Option Business
  isSaving : Bool
  isDeleting : Bool
  toasts : List Toast
  deriving DecidableEq, Repr

/-- The component's initial state (lines 26–41). -/
def initialState : CState where
  businesses := []
  editingBusiness := none
  isDialogOpen := false
  isAddMode := false
  loading := true
  deleteDialogOpen := false
  businessToDelete := none
  statusDialogOpen := false
  businessToUpdateStatus := none
  isSaving := false
  isDeleting := false
  toasts := []

/-- `fetchBusinesses` (lines 48–62): replace the cache and toast success when
`data.status === 'success'`; toast an error only when the fetch threw; clear
`loading` in the `finally` in every case. A parsed body whose status is not
`"success"` takes neither branch. -/
def fetchBusinessesStep (r : NetResult) (s : CState) : CState :=
  match r with
  | .ok status data =>
    let s1 := if status = "success" then
        { s with businesses := data,
                 toasts := s.toasts ++ [⟨false, "Data loaded from MongoDB"⟩] }
      else s
    { s1 with loading := false }
  | .transportError =>
    { s with toasts := s.toasts ++ [⟨true, "Failed to connect to backend"⟩],
             loading := false }

/-- The candidate record assembled by `handleAdd` (lines 168–180): a locally
computed id `Math.max(...businesses.map(b => b.id), 0) + 1`, blank fields and
the current timestamp `now`. -/
def handleAdd (businesses : List Business) (now : Int) : Business where
  id := (businesses.map (·.id)).foldr max 0 + 1
  businessName := ""
  phone := ""
  businessType := ""
  comment := ""
  status := .unset
  createdAt := some now

/-- The validation + request + state-update logic of `handleSave`
(lines 182–236). `saveResp` is the outcome of the POST/PUT; `refetchResp` is
the outcome of the GET issued by the nested `fetchBusinesses()` call (that
call catches its own errors, so it never throws into `handleSave`).
Note `setIsDialogOpen(false)` sits inside the `try` but outside the
`data.status === 'success'` check, so a parsed non-success body still closes
the dialog, silently. -/
def handleSaveStep (saveResp refetchResp : NetResult) (s : CState) : CState :=
  match s.editingBusiness with
  | none => s
  | some e =>
    if jsTrim e.phone = "" then
      { s with toasts := s.toasts ++ [⟨true, "Phone number is required"⟩] }
    else if s.businesses.any (fun b => b.phone == e.phone && b.id != e.id) then
      { s with toasts := s.toasts ++ [⟨true, "Mobile number already exists"⟩] }
    else
      let s0 := { s with isSaving := true }
      match saveResp with
      | .transportError =>
        { s0 with toasts := s0.toasts ++ [⟨true, "Failed to save business"⟩],
                  isSaving := false }
      | .ok status _ =>
        let s1 := if status = "success" then
            let s2 := fetchBusinessesStep refetchResp s0
            { s2 with toasts := s2.toasts ++
                [⟨false, if s.isAddMode then "Business added to MongoDB"
                         else "Business updated in MongoDB"⟩] }
          else s0
        { s1 with isDialogOpen := false, editingBusiness := none, isSaving := false }

/-- `handleStatusChange` (lines 137–160): on a success body, patch the one
matching record in place (no re-fetch), toast success and close the dialog;
on a transport error, toast failure; on a parsed non-success body, do
nothing. -/
def handleStatusChangeStep (newStatus : StatusType) (resp : NetResult) (s : CState) : CState :=
  match s.businessToUpdateStatus with
  | none => s
  | some target =>
    match resp with
    | .transportError =>
      { s with toasts := s.toasts ++ [⟨true, "Failed to update status"⟩] }
    | .ok status _ =>
      if status = "success" then
        { s with
          businesses := s.businesses.map (fun b =>
            if b.id = target.id then { b with status := newStatus } else b),
          toasts := s.toasts ++ [⟨false, "Status updated successfully"⟩],
          statusDialogOpen := false,
          businessToUpdateStatus := none }
      else s

/-- The phone `Input`'s `onChange` handler (lines 748–760): remove every
whitespace character (`replace(/\s/g, '')`), then strip leading zeros
(`replace(/^0+/, '')`), and store the result in the edited record. -/
def cleanPhoneInput (input : String) : String :=
  ⟨(input.data.filter (fun c => !c.isWhitespace)).dropWhile (fun c => c == '0')⟩

/-- Storing a phone keystroke: `setEditingBusiness({ ...editingBusiness,
phone: cleanedValue })`. -/
def phoneOnChange (input : String) (e : Business) : Business :=
  { e with phone := cleanPhoneInput input }

/-! ### Derived notions used by the verification -/

/-- A record carries a creation timestamp (`createdAt` is set and parseable;
the comparators treat a missing value through the falsy check `!a.createdAt`). -/
def hasTs (b : Business) : Bool := b.createdAt.isSome

/-- The timestamp of a record, defaulting to `0` when absent (only ever used
on records with `hasTs`). -/
def tsOf (b : Business) : Int := b.createdAt.getD 0

/-- Strict timestamp order on records. -/
def tsLt (a b : Business) : Prop := tsOf a < tsOf b

instance : IsAntisymm Business tsLt :=
  ⟨fun _ _ h1 h2 => absurd (lt_trans h1 h2) (lt_irrefl _)⟩

/-- A fixed locale comparison used for concrete instances (no claim under
verification depends on the locale order). -/
def lc0 : String → String → Int := fun _ _ => 0

/-- Sample record: id 1, phone "111", timestamp 5. -/
def cxA : Business := ⟨1, "A", "111", "", "", .unset, some 5⟩

/-- Sample record: id 2, phone "222", same timestamp 5 as `cxA`. -/
def cxB : Business := ⟨2, "B", "222", "", "", .unset, some 5⟩

/-- Sample record: id 3, phone "333", timestamp 9. -/
def cxC : Business := ⟨3, "C", "333", "", "", .unset, some 9⟩

/-- A state in the middle of an add flow: dialog open, candidate `cxB`,
existing collection `[cxA]`. -/
def csOpen : CState :=
  { initialState with
    businesses := [cxA]
    editingBusiness := some cxB
    isDialogOpen := true
    isAddMode := true
    loading := false }

/-- A candidate whose phone duplicates `cxA`'s phone under a different id. -/
def cxBdup : Business := { cxB with phone := "111" }

/-- A state in the middle of an add flow whose candidate `cxBdup` collides
with the existing record `cxA` on the phone number. -/
def csDup : CState :=
  { initialState with
    businesses := [cxA]
    editingBusiness := some cxBdup
    isDialogOpen := true
    isAddMode := true
    loading := false }

/-- A state in the middle of a status-change flow: status dialog open for
record `cxA`, collection `[cxA, cxB]`. -/
def csStatus : CState :=
  { initialState with
    businesses := [cxA, cxB]
    statusDialogOpen := true
    businessToUpdateStatus := some cxA
    loading := false }

end BizTracker

namespace BizTracker

/-! ### Helper lemmas on the string models -/

theorem leadsList_iff (n h : List Char) : leadsList n h = true ↔ ∃ t, n ++ t = h := by
  induction n generalizing h with
  | nil => simp [leadsList]
  | cons a as ih =>
    cases h with
    | nil => simp [leadsList]
    | cons b bs =>
      simp only [leadsList, Bool.and_eq_true, beq_iff_eq, ih, List.cons_append,
        List.cons.injEq]
      exact ⟨fun ⟨h1, t, h2⟩ => ⟨t, h1, h2⟩, fun ⟨t, h1, h2⟩ => ⟨h1, t, h2⟩⟩

theorem jsIncludesL_iff (h n : List Char) : jsIncludesL h n = true ↔ ContainsSub h n := by
  induction h with
  | nil =>
    constructor
    · intro hh
      have hn : n = [] := by simpa [jsIncludesL, List.isEmpty_iff] using hh
      exact ⟨[], [], by simp [hn]⟩
    · rintro ⟨s, t, hst⟩
      have hlen := congrArg List.length hst
      simp only [List.length_append, List.length_nil] at hlen
      have hn : n = [] := List.length_eq_zero.mp (by omega)
      simp [jsIncludesL, hn]
  | cons c t ih =>
    constructor
    · intro hh
      have hh' : leadsList n (c :: t) = true ∨ jsIncludesL t n = true := by
        simpa [jsIncludesL, Bool.or_eq_true] using hh
      rcases hh' with h1 | h2
      · rcases (leadsList_iff n (c :: t)).mp h1 with ⟨u, hu⟩
        exact ⟨[], u, by simpa using hu⟩
      · rcases ih.mp h2 with ⟨s, u, hsu⟩
        exact ⟨c :: s, u, by simp [← hsu]⟩
    · rintro ⟨s, u, hsu⟩
      cases s with
      | nil =>
        have hu : n ++ u = c :: t := by simpa using hsu
        have hl : leadsList n (c :: t) = true := (leadsList_iff _ _).mpr ⟨u, hu⟩
        simp [jsIncludesL, hl]
      | cons d s' =>
        have hds : d = c ∧ s' ++ n ++ u = t := by
          simpa [List.cons_append, List.append_assoc] using hsu
        have hin : jsIncludesL t n = true := ih.mpr ⟨s', u, hds.2⟩
        simp [jsIncludesL, hin]

theorem jsIncludesL_nil_needle (h : List Char) : jsIncludesL h [] = true := by
  cases h <;> simp [jsIncludesL, leadsList]

theorem passesFilter_empty (b : Business) : passesFilter "" "" b = true := by
  have hd : ("" : String).data = [] := rfl
  simp [passesFilter, jsIncludes, jsToLower, hd, jsIncludesL_nil_needle]

theorem filter_passesFilter_empty (bs : List Business) :
    bs.filter (passesFilter "" "") = bs :=
  List.filter_eq_self.mpr fun b _ => passesFilter_empty b

/-! ### Helper lemmas on the date-mode sort order -/

theorem businessLe_date_trans (lc : String → String → Int) (sb : SortBy)
    (hsb : sb = SortBy.dateNew ∨ sb = SortBy.dateOld) (a b c : Business)
    (h1 : businessLe lc sb a b = true) (h2 : businessLe lc sb b c = true) :
    businessLe lc sb a c = true := by
  obtain ⟨_, _, _, _, _, _, da⟩ := a
  obtain ⟨_, _, _, _, _, _, db⟩ := b
  obtain ⟨_, _, _, _, _, _, dc⟩ := c
  rcases hsb with rfl | rfl <;>
    rcases da with _ | ta <;> rcases db with _ | tb <;> rcases dc with _ | tc <;>
    simp_all [businessLe, businessCmp] <;> omega

theorem businessLe_date_total (lc : String → String → Int) (sb : SortBy)
    (hsb : sb = SortBy.dateNew ∨ sb = SortBy.dateOld) (a b : Business) :
    (businessLe lc sb a b || businessLe lc sb b a) = true := by
  obtain ⟨_, _, _, _, _, _, da⟩ := a
  obtain ⟨_, _, _, _, _, _, db⟩ := b
  rcases hsb with rfl | rfl <;>
    rcases da with _ | ta <;> rcases db with _ | tb <;>
    simp_all [businessLe, businessCmp] <;> omega

theorem pairwise_mergeSort_businessLe (lc : String → String → Int) (sb : SortBy)
    (hsb : sb = SortBy.dateNew ∨ sb = SortBy.dateOld) (l : List Business) :
    (l.mergeSort (businessLe lc sb)).Pairwise (fun a b => businessLe lc sb a b = true) :=
  List.sorted_mergeSort (businessLe_date_trans lc sb hsb)
    (businessLe_date_total lc sb hsb) l

theorem pairwise_mergeSort_none_last (lc : String → String → Int) (sb : SortBy)
    (hsb : sb = SortBy.dateNew ∨ sb = SortBy.dateOld) (l : List Business) :
    (l.mergeSort (businessLe lc sb)).Pairwise
      (fun x y => x.createdAt = none → y.createdAt = none) := by
  refine (pairwise_mergeSort_businessLe lc sb hsb l).imp ?_
  intro x y hxy hx
  rcases hy : y.createdAt with _ | t
  · rfl
  · exfalso
    rcases hsb with rfl | rfl <;> simp [businessLe, businessCmp, hx, hy] at hxy

theorem dateSort_filter_reverse (lc : String → String → Int) (l : List Business)
    (hdist : l.Pairwise
      (fun a b => hasTs a = true → hasTs b = true → tsOf a ≠ tsOf b)) :
    (l.mergeSort (businessLe lc .dateOld)).filter hasTs =
      ((l.mergeSort (businessLe lc .dateNew)).filter hasTs).reverse := by
  have hsymm : ∀ {x y : Business},
      (hasTs x = true → hasTs y = true → tsOf x ≠ tsOf y) →
      (hasTs y = true → hasTs x = true → tsOf y ≠ tsOf x) :=
    fun h hy hx => (h hx hy).symm
  have key : ∀ sb, sb = SortBy.dateNew ∨ sb = SortBy.dateOld →
      ((l.mergeSort (businessLe lc sb)).filter hasTs).Pairwise
        (fun a b => businessLe lc sb a b = true ∧
          (hasTs a = true → hasTs b = true → tsOf a ≠ tsOf b)) := by
    intro sb hsb
    have hS : (l.mergeSort (businessLe lc sb)).Pairwise
        (fun a b => businessLe lc sb a b = true) :=
      pairwise_mergeSort_businessLe lc sb hsb l
    have hD : (l.mergeSort (businessLe lc sb)).Pairwise
        (fun a b => hasTs a = true → hasTs b = true → tsOf a ≠ tsOf b) :=
      ((List.mergeSort_perm l (businessLe lc sb)).pairwise_iff hsymm).mpr hdist
    exact List.Pairwise.sublist (List.filter_sublist _) (hS.and hD)
  have hsome : ∀ {x : Business}, x ∈ (l.mergeSort (businessLe lc .dateNew)).filter hasTs ∨
      x ∈ (l.mergeSort (businessLe lc .dateOld)).filter hasTs → ∃ t, x.createdAt = some t := by
    intro x hx
    have hts : hasTs x = true := by
      rcases hx with hx | hx <;> exact List.of_mem_filter hx
    exact Option.isSome_iff_exists.mp hts
  have hnewStrict : ((l.mergeSort (businessLe lc .dateNew)).filter hasTs).Pairwise
      (fun a b => tsLt b a) := by
    refine (key .dateNew (Or.inl rfl)).imp_of_mem ?_
    intro a b ha hb hab
    rcases hsome (Or.inl ha) with ⟨ta, hta⟩
    rcases hsome (Or.inl hb) with ⟨tb, htb⟩
    have hle : tb - ta ≤ 0 := by
      have := hab.1
      simpa [businessLe, businessCmp, hta, htb] using this
    have hne : ta ≠ tb := by
      have := hab.2 (by simp [hasTs, hta]) (by simp [hasTs, htb])
      simpa [tsOf, hta, htb] using this
    simp only [tsLt, tsOf, hta, htb, Option.getD_some]
    omega
  have holdStrict : ((l.mergeSort (businessLe lc .dateOld)).filter hasTs).Pairwise
      (fun a b => tsLt a b) := by
    refine (key .dateOld (Or.inr rfl)).imp_of_mem ?_
    intro a b ha hb hab
    rcases hsome (Or.inr ha) with ⟨ta, hta⟩
    rcases hsome (Or.inr hb) with ⟨tb, htb⟩
    have hle : ta - tb ≤ 0 := by
      have := hab.1
      simpa [businessLe, businessCmp, hta, htb] using this
    have hne : ta ≠ tb := by
      have := hab.2 (by simp [hasTs, hta]) (by simp [hasTs, htb])
      simpa [tsOf, hta, htb] using this
    simp only [tsLt, tsOf, hta, htb, Option.getD_some]
    omega
  have hrev : (((l.mergeSort (businessLe lc .dateNew)).filter hasTs).reverse).Pairwise
      (fun a b => tsLt a b) :=
    List.pairwise_reverse.mpr hnewStrict
  have hperm : List.Perm ((l.mergeSort (businessLe lc .dateOld)).filter hasTs)
      (((l.mergeSort (businessLe lc .dateNew)).filter hasTs).reverse) := by
    have p1 := (List.mergeSort_perm l (businessLe lc .dateOld)).filter hasTs
    have p2 := (List.mergeSort_perm l (businessLe lc .dateNew)).filter hasTs
    exact (p1.trans p2.symm).trans (List.reverse_perm _).symm
  exact List.eq_of_perm_of_sorted hperm holdStrict hrev

/-! ### Helper lemmas for the id computation of `handleAdd` -/

theorem le_foldr_max (l : List Int) (x : Int) (hx : x ∈ l) : x ≤ l.foldr max 0 := by
  induction l with
  | nil => cases hx
  | cons a t ih =>
    rcases List.mem_cons.mp hx with rfl | hx'
    · exact le_max_left _ _
    · exact le_trans (ih hx') (le_max_right _ _)

theorem foldr_max_mem (l : List Int) (hpos : ∀ x ∈ l, 0 < x) (hne : l ≠ []) :
    ∃ x ∈ l, l.foldr max 0 = x := by
  induction l with
  | nil => exact absurd rfl hne
  | cons a t ih =>
    cases t with
    | nil =>
      refine ⟨a, List.mem_cons_self _ _, ?_⟩
      have ha : (0 : Int) ≤ a := le_of_lt (hpos a (List.mem_cons_self _ _))
      simp [max_eq_left ha]
    | cons b t' =>
      rcases ih (fun x hx => hpos x (List.mem_cons_of_mem _ hx)) (by simp) with ⟨x, hx, hfx⟩
      rcases le_total a ((b :: t').foldr max 0) with hle | hle
      · exact ⟨x, List.mem_cons_of_mem _ hx, by rw [List.foldr_cons, max_eq_right hle, hfx]⟩
      · exact ⟨a, List.mem_cons_self _ _, by rw [List.foldr_cons, max_eq_left hle]⟩

/-! ### Helper lemma for the pagination ceiling -/

theorem jsCeilDiv_thirty_eq_ceil (a : Nat) :
    (jsCeilDiv a 30 : ℤ) = ⌈(a : ℚ) / 30⌉ := by
  have hn1 : a ≤ 30 * jsCeilDiv a 30 := by unfold jsCeilDiv; omega
  have hn2 : 30 * jsCeilDiv a 30 ≤ a + 29 := by unfold jsCeilDiv; omega
  rw [eq_comm, Int.ceil_eq_iff]
  have hq1 : ((a : ℚ)) ≤ 30 * (jsCeilDiv a 30 : ℚ) := by exact_mod_cast hn1
  have hq2 : 30 * (jsCeilDiv a 30 : ℚ) ≤ (a : ℚ) + 29 := by exact_mod_cast hn2
  constructor
  · rw [lt_div_iff₀ (by norm_num : (0 : ℚ) < 30)]
    push_cast
    linarith
  · rw [div_le_iff₀ (by norm_num : (0 : ℚ) < 30)]
    push_cast
    linarith

/-! ### Helper lemma for the phone input cleaning -/

theorem head_dropWhile_not {p : Char → Bool} (l : List Char) (c : Char)
    (hc : (l.dropWhile p).head? = some c) : p c = false := by
  induction l with
  | nil => simp at hc
  | cons a t ih =>
    by_cases hpa : p a = true
    · rw [List.dropWhile_cons_of_pos hpa] at hc
      exact ih hc
    · rw [List.dropWhile_cons_of_neg hpa] at hc
      simp only [List.head?_cons, Option.some.injEq] at hc
      subst hc
      simpa using hpa

/-! ### Claim theorems -/

/-- C4: a record passes the filter iff its lowercased business name contains
the lowercased name filter as a contiguous substring and its phone contains
the phone filter as a contiguous, case-sensitive substring; with both filter
strings empty every record passes and the pipeline returns the whole
collection in its sort order. -/
theorem passesFilter_spec (n p : String) (b : Business) (bs : List Business)
    (lc : String → String → Int) (sb : SortBy) :
    (passesFilter n p b = true ↔
      (ContainsSub (jsToLower b.businessName).data (jsToLower n).data ∧
        ContainsSub b.phone.data p.data)) ∧
    bs.filter (passesFilter "" "") = bs ∧
    filteredBusinesses lc bs "" "" sb = bs.mergeSort (businessLe lc sb) := by
  refine ⟨?_, filter_passesFilter_empty bs, ?_⟩
  · simp [passesFilter, jsIncludes, Bool.and_eq_true, jsIncludesL_iff]
  · unfold filteredBusinesses
    rw [filter_passesFilter_empty]

/-- C6: under both date sort modes, every record lacking a creation timestamp
is ordered after every record carrying one (no timestamped record ever
follows a timestamp-less one in the sorted output), and any two
timestamp-less records compare as equal (comparator value 0). -/
theorem dateSort_none_timestamps_last (lc : String → String → Int)
    (bs : List Business) (n p : String) :
    (filteredBusinesses lc bs n p .dateNew).Pairwise
      (fun x y => x.createdAt = none → y.createdAt = none) ∧
    (filteredBusinesses lc bs n p .dateOld).Pairwise
      (fun x y => x.createdAt = none → y.createdAt = none) ∧
    ∀ a b : Business, a.createdAt = none → b.createdAt = none →
      businessCmp lc .dateNew a b = 0 ∧ businessCmp lc .dateOld a b = 0 := by
  refine ⟨pairwise_mergeSort_none_last lc _ (Or.inl rfl) _,
    pairwise_mergeSort_none_last lc _ (Or.inr rfl) _, ?_⟩
  intro a b ha hb
  constructor <;> simp [businessCmp, ha, hb]

/-- C5: amended. For every filtered set whose present creation timestamps are
pairwise distinct, date-new and date-old sorting yield exactly reversed
orders among the records that carry a timestamp, and timestamp-less records
come last in both results. (Without distinctness the claim fails: the stable
sort keeps two records with equal timestamps in their original relative order
under both modes.) -/
theorem dateSort_modes_reverse_each_other (lc : String → String → Int)
    (bs : List Business) (n p : String)
    (hdist : (bs.filter (passesFilter n p)).Pairwise
      (fun a b => hasTs a = true → hasTs b = true → tsOf a ≠ tsOf b)) :
    (filteredBusinesses lc bs n p .dateOld).filter hasTs =
      ((filteredBusinesses lc bs n p .dateNew).filter hasTs).reverse ∧
    (filteredBusinesses lc bs n p .dateNew).Pairwise
      (fun x y => x.createdAt = none → y.createdAt = none) ∧
    (filteredBusinesses lc bs n p .dateOld).Pairwise
      (fun x y => x.createdAt = none → y.createdAt = none) :=
  ⟨dateSort_filter_reverse lc _ hdist,
    pairwise_mergeSort_none_last lc _ (Or.inl rfl) _,
    pairwise_mergeSort_none_last lc _ (Or.inr rfl) _⟩

/-- C5: witness for the amended claim at the concrete collection
`[cxA, cxC]` (timestamps 5 and 9, distinct). -/
theorem dateSort_modes_reverse_each_other_witness :
    ([cxA, cxC].filter (passesFilter "" "")).Pairwise
      (fun a b => hasTs a = true → hasTs b = true → tsOf a ≠ tsOf b) ∧
    ((filteredBusinesses lc0 [cxA, cxC] "" "" .dateOld).filter hasTs =
      ((filteredBusinesses lc0 [cxA, cxC] "" "" .dateNew).filter hasTs).reverse ∧
    (filteredBusinesses lc0 [cxA, cxC] "" "" .dateNew).Pairwise
      (fun x y => x.createdAt = none → y.createdAt = none) ∧
    (filteredBusinesses lc0 [cxA, cxC] "" "" .dateOld).Pairwise
      (fun x y => x.createdAt = none → y.createdAt = none)) :=
  ⟨by decide, dateSort_modes_reverse_each_other lc0 [cxA, cxC] "" "" (by decide)⟩

/-- C5: counterexample to the claim as stated: `cxA` and `cxB` share the
timestamp 5, the stable sort keeps them in their original order under both
date modes, so the date-old order is not the reverse of the date-new order
among timestamped records. -/
theorem dateSort_modes_not_reversed_on_ties :
    ¬ ((filteredBusinesses lc0 [cxA, cxB] "" "" .dateOld).filter hasTs =
      ((filteredBusinesses lc0 [cxA, cxB] "" "" .dateNew).filter hasTs).reverse) := by
  have hfil : [cxA, cxB].filter (passesFilter "" "") = [cxA, cxB] :=
    filter_passesFilter_empty _
  have hN : List.mergeSort [cxA, cxB] (businessLe lc0 .dateNew) = [cxA, cxB] :=
    List.mergeSort_of_sorted (by decide)
  have hO : List.mergeSort [cxA, cxB] (businessLe lc0 .dateOld) = [cxA, cxB] :=
    List.mergeSort_of_sorted (by decide)
  unfold filteredBusinesses
  rw [hfil, hN, hO]
  decide

/-- C2: amended. `totalPages` equals `ceil(filteredCount / 30)` with no
minimum applied: in particular it is `0`, not `1`, when the filtered set is
empty. -/
theorem totalPages_eq_ceil (lc : String → String → Int) (bs : List Business)
    (n p : String) (sb : SortBy) :
    (totalPages lc bs n p sb : ℤ) =
      ⌈((bs.filter (passesFilter n p)).length : ℚ) / 30⌉ ∧
    (totalPages lc bs n p sb = 0 ↔ (bs.filter (passesFilter n p)).length = 0) := by
  have hlen : (filteredBusinesses lc bs n p sb).length
      = (bs.filter (passesFilter n p)).length := by
    simp [filteredBusinesses]
  constructor
  · unfold totalPages
    rw [hlen]
    exact jsCeilDiv_thirty_eq_ceil _
  · unfold totalPages jsCeilDiv itemsPerPage
    rw [hlen]
    omega

/-- C2: counterexample to the "minimum of 1 page" clause: with an empty
collection the filtered set is empty and `totalPages` computes `0`, not `1`. -/
theorem totalPages_empty_is_zero :
    totalPages lc0 [] "" "" .noSort = 0 ∧ ¬ totalPages lc0 [] "" "" .noSort = 1 := by
  have h : filteredBusinesses lc0 [] "" "" .noSort = [] := by
    simp [filteredBusinesses]
  constructor <;> simp [totalPages, h, jsCeilDiv, itemsPerPage]

/-- C9: the id assigned by `handleAdd` is 1 on an empty collection, and on a
nonempty collection of positive ids it is one more than an id held by some
record and strictly above every record's id — that is, max existing id + 1. -/
theorem handleAdd_id_max_succ (bs : List Business) (now : Int)
    (hpos : ∀ b ∈ bs, 0 < b.id) :
    (handleAdd [] now).id = 1 ∧
    (bs ≠ [] →
      (∃ b ∈ bs, (handleAdd bs now).id = b.id + 1) ∧
      ∀ b ∈ bs, b.id + 1 ≤ (handleAdd bs now).id) := by
  refine ⟨rfl, fun hne => ⟨?_, ?_⟩⟩
  · have hpos' : ∀ x ∈ bs.map (·.id), 0 < x := by
      intro x hx
      rcases List.mem_map.mp hx with ⟨b, hb, rfl⟩
      exact hpos b hb
    have hne' : bs.map (·.id) ≠ [] := by
      intro h
      exact hne (List.map_eq_nil_iff.mp h)
    rcases foldr_max_mem _ hpos' hne' with ⟨x, hx, hfx⟩
    rcases List.mem_map.mp hx with ⟨b, hb, rfl⟩
    exact ⟨b, hb, by simp [handleAdd, hfx]⟩
  · intro b hb
    have hle := le_foldr_max (bs.map (·.id)) b.id (List.mem_map_of_mem _ hb)
    show b.id + 1 ≤ (bs.map (·.id)).foldr max 0 + 1
    omega

/-- C9: witness at the concrete collection `[cxA, cxC]` (ids 1 and 3). -/
theorem handleAdd_id_max_succ_witness :
    (∀ b ∈ [cxA, cxC], 0 < b.id) ∧
    ((handleAdd [] 0).id = 1 ∧
      ([cxA, cxC] ≠ [] →
        (∃ b ∈ [cxA, cxC], (handleAdd [cxA, cxC] 0).id = b.id + 1) ∧
        ∀ b ∈ [cxA, cxC], b.id + 1 ≤ (handleAdd [cxA, cxC] 0).id)) :=
  ⟨by decide, handleAdd_id_max_succ [cxA, cxC] 0 (by decide)⟩

/-- C10: the phone change handler stores the input with every whitespace
character removed and the leading zeros stripped; consequently the stored
phone contains no whitespace character and does not start with the digit 0. -/
theorem phoneOnChange_clean (input : String) (e : Business) :
    (phoneOnChange input e).phone.data =
      (input.data.filter (fun c => !c.isWhitespace)).dropWhile (fun c => c == '0') ∧
    (∀ c ∈ (phoneOnChange input e).phone.data, c.isWhitespace = false) ∧
    (∀ c, (phoneOnChange input e).phone.data.head? = some c → c ≠ '0') := by
  refine ⟨rfl, ?_, ?_⟩
  · intro c hc
    have hc' : c ∈ input.data.filter (fun c => !c.isWhitespace) :=
      (List.dropWhile_sublist _).subset hc
    have hw := List.of_mem_filter hc'
    simpa using hw
  · intro c hc
    have hz := head_dropWhile_not _ c hc
    simpa using hz

/-- C3: amended. For the initial load: on success the cache is replaced with
the server data; on a transport failure the cache stays empty and a failure
notification is surfaced; on a parsed response whose status is not "success"
the cache stays empty but no notification of any kind is surfaced; the
loading flag clears in every case. -/
theorem fetchBusinesses_initial (st : String) (data : List Business)
    (hst : st ≠ "success") :
    (∀ d, (fetchBusinessesStep (.ok "success" d) initialState).businesses = d ∧
      (fetchBusinessesStep (.ok "success" d) initialState).loading = false) ∧
    ((fetchBusinessesStep (.ok st data) initialState).businesses = [] ∧
      (fetchBusinessesStep (.ok st data) initialState).toasts = [] ∧
      (fetchBusinessesStep (.ok st data) initialState).loading = false) ∧
    ((fetchBusinessesStep .transportError initialState).businesses = [] ∧
      (fetchBusinessesStep .transportError initialState).toasts =
        [⟨true, "Failed to connect to backend"⟩] ∧
      (fetchBusinessesStep .transportError initialState).loading = false) := by
  refine ⟨fun d => ⟨?_, ?_⟩, ⟨?_, ?_, ?_⟩, rfl, rfl, rfl⟩ <;>
    simp [fetchBusinessesStep, initialState, hst]

/-- C3: witness at the concrete non-success status "error" with data `[cxA]`. -/
theorem fetchBusinesses_initial_witness :
    ("error" : String) ≠ "success" ∧
    ((∀ d, (fetchBusinessesStep (.ok "success" d) initialState).businesses = d ∧
      (fetchBusinessesStep (.ok "success" d) initialState).loading = false) ∧
    ((fetchBusinessesStep (.ok "error" [cxA]) initialState).businesses = [] ∧
      (fetchBusinessesStep (.ok "error" [cxA]) initialState).toasts = [] ∧
      (fetchBusinessesStep (.ok "error" [cxA]) initialState).loading = false) ∧
    ((fetchBusinessesStep .transportError initialState).businesses = [] ∧
      (fetchBusinessesStep .transportError initialState).toasts =
        [⟨true, "Failed to connect to backend"⟩] ∧
      (fetchBusinessesStep .transportError initialState).loading = false)) :=
  ⟨by decide, fetchBusinesses_initial "error" [cxA] (by decide)⟩

/-- C3: counterexample to the claim as stated: a response parsed with status
"error" surfaces no notification at all (the toast stream stays empty),
though the claim says a failure notification is surfaced. -/
theorem fetchBusinesses_nonsuccess_silent :
    (¬ ∃ t ∈ (fetchBusinessesStep (.ok "error" [cxA]) initialState).toasts,
      t.isError = true) ∧
    (fetchBusinessesStep (.ok "error" [cxA]) initialState).businesses = [] ∧
    (fetchBusinessesStep (.ok "error" [cxA]) initialState).loading = false := by
  refine ⟨?_, rfl, rfl⟩
  decide

/-- C1: amended. After passing validation: on a transport error the dialog
flag is left as it was (an open dialog stays open) and a failure notification
is surfaced; on a parsed response whose status field is not "success" the
dialog is closed and no notification at all is surfaced; on success the
dialog is closed. Contrary to the claim as stated, the dialog does not stay
open on a non-success-status response. -/
theorem handleSave_failure_dialog (s : CState) (e : Business)
    (refetchResp : NetResult) (st : String) (data : List Business)
    (he : s.editingBusiness = some e)
    (hphone : ¬ jsTrim e.phone = "")
    (hdup : s.businesses.any (fun b => b.phone == e.phone && b.id != e.id) = false)
    (hst : st ≠ "success") :
    ((handleSaveStep .transportError refetchResp s).isDialogOpen = s.isDialogOpen ∧
      (handleSaveStep .transportError refetchResp s).toasts =
        s.toasts ++ [⟨true, "Failed to save business"⟩] ∧
      (handleSaveStep .transportError refetchResp s).businesses = s.businesses) ∧
    ((handleSaveStep (.ok st data) refetchResp s).isDialogOpen = false ∧
      (handleSaveStep (.ok st data) refetchResp s).toasts = s.toasts ∧
      (handleSaveStep (.ok st data) refetchResp s).businesses = s.businesses) ∧
    (∀ d, (handleSaveStep (.ok "success" d) refetchResp s).isDialogOpen = false) := by
  refine ⟨⟨?_, ?_, ?_⟩, ⟨?_, ?_, ?_⟩, fun d => ?_⟩ <;>
    simp [handleSaveStep, he, hphone, hdup, hst]

/-- C1: witness at the open add dialog `csOpen` (candidate `cxB`, valid
phone), non-success status "error", refetch outcome irrelevant. -/
theorem handleSave_failure_dialog_witness :
    (csOpen.editingBusiness = some cxB ∧
      ¬ jsTrim cxB.phone = "" ∧
      csOpen.businesses.any (fun b => b.phone == cxB.phone && b.id != cxB.id) = false ∧
      ("error" : String) ≠ "success") ∧
    (((handleSaveStep .transportError (.ok "success" []) csOpen).isDialogOpen
        = csOpen.isDialogOpen ∧
      (handleSaveStep .transportError (.ok "success" []) csOpen).toasts =
        csOpen.toasts ++ [⟨true, "Failed to save business"⟩] ∧
      (handleSaveStep .transportError (.ok "success" []) csOpen).businesses
        = csOpen.businesses) ∧
    ((handleSaveStep (.ok "error" []) (.ok "success" []) csOpen).isDialogOpen = false ∧
      (handleSaveStep (.ok "error" []) (.ok "success" []) csOpen).toasts = csOpen.toasts ∧
      (handleSaveStep (.ok "error" []) (.ok "success" []) csOpen).businesses
        = csOpen.businesses) ∧
    (∀ d, (handleSaveStep (.ok "success" d) (.ok "success" []) csOpen).isDialogOpen
        = false)) :=
  ⟨⟨rfl, by decide, by decide, by decide⟩,
    handleSave_failure_dialog csOpen cxB (.ok "success" []) "error" []
      rfl (by decide) (by decide) (by decide)⟩

/-- C1: counterexample to the claim as stated. From the open add dialog
`csOpen`, a save whose POST response parses with status "error" (a failed
save) closes the dialog and surfaces no notification whatsoever. -/
theorem handleSave_nonsuccess_closes_dialog :
    csOpen.isDialogOpen = true ∧
    (handleSaveStep (.ok "error" []) (.ok "error" []) csOpen).isDialogOpen = false ∧
    (handleSaveStep (.ok "error" []) (.ok "error" []) csOpen).toasts = [] := by
  refine ⟨rfl, ?_, ?_⟩ <;> decide

/-- C7: a save whose candidate has an empty phone, or a phone equal to an
existing record's phone under a different id, is rejected with an error
notification, leaves the collection unchanged, and its outcome is
independent of every network response — no network call is consulted. -/
theorem handleSave_validation_rejects (s : CState) (e : Business)
    (r1 r2 r1' r2' : NetResult)
    (hbad : e.phone = "" ∨ ∃ b ∈ s.businesses, b.phone = e.phone ∧ b.id ≠ e.id)
    (he : s.editingBusiness = some e) :
    (handleSaveStep r1 r2 s).businesses = s.businesses ∧
    (∃ msg, (handleSaveStep r1 r2 s).toasts = s.toasts ++ [⟨true, msg⟩]) ∧
    handleSaveStep r1 r2 s = handleSaveStep r1' r2' s := by
  have hsplit : jsTrim e.phone = "" ∨
      (¬ jsTrim e.phone = "" ∧
        s.businesses.any (fun b => b.phone == e.phone && b.id != e.id) = true) := by
    rcases hbad with hb | ⟨b, hmem, hph, hid⟩
    · left
      rw [hb]
      decide
    · by_cases ht : jsTrim e.phone = ""
      · exact Or.inl ht
      · exact Or.inr ⟨ht, List.any_eq_true.mpr ⟨b, hmem, by simp [hph, hid]⟩⟩
  rcases hsplit with h1 | ⟨h1, h2⟩
  · refine ⟨?_, ⟨"Phone number is required", ?_⟩, ?_⟩ <;>
      simp [handleSaveStep, he, h1]
  · refine ⟨?_, ⟨"Mobile number already exists", ?_⟩, ?_⟩ <;>
      simp [handleSaveStep, he, h1, h2]

/-- C7: witness at the duplicate-phone add state `csDup` (candidate phone
"111" collides with `cxA`), with two distinct pairs of network outcomes. -/
theorem handleSave_validation_rejects_witness :
    ((cxBdup.phone = "" ∨
        ∃ b ∈ csDup.businesses, b.phone = cxBdup.phone ∧ b.id ≠ cxBdup.id) ∧
      csDup.editingBusiness = some cxBdup) ∧
    ((handleSaveStep .transportError .transportError csDup).businesses
        = csDup.businesses ∧
      (∃ msg, (handleSaveStep .transportError .transportError csDup).toasts =
        csDup.toasts ++ [⟨true, msg⟩]) ∧
      handleSaveStep .transportError .transportError csDup
        = handleSaveStep (.ok "success" []) (.ok "success" []) csDup) :=
  ⟨⟨by decide, rfl⟩,
    handleSave_validation_rejects csDup cxBdup .transportError .transportError
      (.ok "success" []) (.ok "success" []) (by decide) rfl⟩

/-- C8: on a success response the status change patches exactly the targeted
record in place — the cache keeps its length, every record with a different
id is untouched, the patched position changes only its status field — and the
dialog closes; on a non-success response the state is entirely unchanged; on
a transport error the cache is unchanged and the dialog stays open. The new
cache is computed from the prior cache (no re-fetch). -/
theorem handleStatusChange_patch (s : CState) (target : Business)
    (newStatus : StatusType) (data : List Business) (st : String)
    (ht : s.businessToUpdateStatus = some target)
    (hopen : s.statusDialogOpen = true)
    (hst : st ≠ "success") :
    ((handleStatusChangeStep newStatus (.ok "success" data) s).businesses.length
        = s.businesses.length) ∧
    (∀ i (h1 : i <
        (handleStatusChangeStep newStatus (.ok "success" data) s).businesses.length)
        (h2 : i < s.businesses.length),
      ((s.businesses.get ⟨i, h2⟩).id ≠ target.id →
        (handleStatusChangeStep newStatus (.ok "success" data) s).businesses.get ⟨i, h1⟩
          = s.businesses.get ⟨i, h2⟩) ∧
      ((s.businesses.get ⟨i, h2⟩).id = target.id →
        ((handleStatusChangeStep newStatus (.ok "success" data) s).businesses.get
            ⟨i, h1⟩).status = newStatus ∧
        ((handleStatusChangeStep newStatus (.ok "success" data) s).businesses.get
            ⟨i, h1⟩).id = (s.businesses.get ⟨i, h2⟩).id ∧
        ((handleStatusChangeStep newStatus (.ok "success" data) s).businesses.get
            ⟨i, h1⟩).businessName = (s.businesses.get ⟨i, h2⟩).businessName ∧
        ((handleStatusChangeStep newStatus (.ok "success" data) s).businesses.get
            ⟨i, h1⟩).phone = (s.businesses.get ⟨i, h2⟩).phone ∧
        ((handleStatusChangeStep newStatus (.ok "success" data) s).businesses.get
            ⟨i, h1⟩).businessType = (s.businesses.get ⟨i, h2⟩).businessType ∧
        ((handleStatusChangeStep newStatus (.ok "success" data) s).businesses.get
            ⟨i, h1⟩).comment = (s.businesses.get ⟨i, h2⟩).comment ∧
        ((handleStatusChangeStep newStatus (.ok "success" data) s).businesses.get
            ⟨i, h1⟩).createdAt = (s.businesses.get ⟨i, h2⟩).createdAt)) ∧
    ((handleStatusChangeStep newStatus (.ok "success" data) s).statusDialogOpen
        = false) ∧
    (handleStatusChangeStep newStatus (.ok st data) s = s) ∧
    ((handleStatusChangeStep newStatus .transportError s).businesses = s.businesses ∧
      (handleStatusChangeStep newStatus .transportError s).statusDialogOpen = true) := by
  have hres : (handleStatusChangeStep newStatus (.ok "success" data) s).businesses
      = s.businesses.map (fun b =>
          if b.id = target.id then { b with status := newStatus } else b) := by
    simp [handleStatusChangeStep, ht]
  refine ⟨?_, ?_, ?_, ?_, ?_, ?_⟩
  · rw [hres]
    simp
  · intro i h1 h2
    constructor
    · intro hid
      simp only [List.get_eq_getElem] at hid ⊢
      simp only [hres, List.getElem_map]
      rw [if_neg hid]
    · intro hid
      simp only [List.get_eq_getElem] at hid ⊢
      simp only [hres, List.getElem_map]
      rw [if_pos hid]
      exact ⟨rfl, rfl, rfl, rfl, rfl, rfl, rfl⟩
  · simp [handleStatusChangeStep, ht]
  · simp [handleStatusChangeStep, ht, hst]
  · simp [handleStatusChangeStep, ht]
  · simp [handleStatusChangeStep, ht, hopen]

/-- C8: witness at the status-change state `csStatus` (target `cxA`, chosen
status yellow), with non-success status "error". -/
theorem handleStatusChange_patch_witness :
    (csStatus.businessToUpdateStatus = some cxA ∧
      csStatus.statusDialogOpen = true ∧ ("error" : String) ≠ "success") ∧
    (((handleStatusChangeStep .yellow (.ok "success" []) csStatus).businesses.length
        = csStatus.businesses.length) ∧
    (∀ i (h1 : i <
        (handleStatusChangeStep .yellow (.ok "success" []) csStatus).businesses.length)
        (h2 : i < csStatus.businesses.length),
      ((csStatus.businesses.get ⟨i, h2⟩).id ≠ cxA.id →
        (handleStatusChangeStep .yellow (.ok "success" []) csStatus).businesses.get
            ⟨i, h1⟩ = csStatus.businesses.get ⟨i, h2⟩) ∧
      ((csStatus.businesses.get ⟨i, h2⟩).id = cxA.id →
        ((handleStatusChangeStep .yellow (.ok "success" []) csStatus).businesses.get
            ⟨i, h1⟩).status = .yellow ∧
        ((handleStatusChangeStep .yellow (.ok "success" []) csStatus).businesses.get
            ⟨i, h1⟩).id = (csStatus.businesses.get ⟨i, h2⟩).id ∧
        ((handleStatusChangeStep .yellow (.ok "success" []) csStatus).businesses.get
            ⟨i, h1⟩).businessName = (csStatus.businesses.get ⟨i, h2⟩).businessName ∧
        ((handleStatusChangeStep .yellow (.ok "success" []) csStatus).businesses.get
            ⟨i, h1⟩).phone = (csStatus.businesses.get ⟨i, h2⟩).phone ∧
        ((handleStatusChangeStep .yellow (.ok "success" []) csStatus).businesses.get
            ⟨i, h1⟩).businessType = (csStatus.businesses.get ⟨i, h2⟩).businessType ∧
        ((handleStatusChangeStep .yellow (.ok "success" []) csStatus).businesses.get
            ⟨i, h1⟩).comment = (csStatus.businesses.get ⟨i, h2⟩).comment ∧
        ((handleStatusChangeStep .yellow (.ok "success" []) csStatus).businesses.get
            ⟨i, h1⟩).createdAt = (csStatus.businesses.get ⟨i, h2⟩).createdAt)) ∧
    ((handleStatusChangeStep .yellow (.ok "success" []) csStatus).statusDialogOpen
        = false) ∧
    (handleStatusChangeStep .yellow (.ok "error" []) csStatus = csStatus) ∧
    ((handleStatusChangeStep .yellow .transportError csStatus).businesses
        = csStatus.businesses ∧
      (handleStatusChangeStep .yellow .transportError csStatus).statusDialogOpen
        = true)) :=
  ⟨⟨rfl, rfl, by decide⟩,
    handleStatusChange_patch csStatus cxA .yellow [] "error" rfl rfl (by decide)⟩

end BizTracker
